import Mathlib

/-!
Verification of the aint-safe async-interrupt-safe container primitives.

The C sources are shallowly embedded: every primitive's state is a Lean
structure whose fields mirror the C struct fields, machine pointers into a
slot array are represented by slot indices / byte offsets, and each C
function becomes a pure Lean function that threads the state explicitly.
The claims under verification all concern runs "without interruption", so
every atomic read-modify-write is executed sequentially: a
compare-exchange whose expected value was just loaded succeeds on its
first attempt, and a quiesce/retry loop reaches its fixed point in one
pass.  Each definition carries a comment naming the C function it embeds.
-/

/- ===================== MCAS engine (mcas.h / mcas.c) ===================== -/

/-- Embeds the C enum `McasStatus` from the MCAS implementation file. -/
inductive McasStatus
  | SUCCESS
  | FAILURE
  | UNDEFINED
  deriving DecidableEq, Repr

/-- Embeds the C enum `McasOperation` (`MCAS_OPERATION_READ` / `MCAS_OPERATION_CAS`). -/
inductive McasOperation
  | READ
  | CAS
  deriving DecidableEq, Repr

/-- Embeds `struct McasJournal`.  The C union of the CAS fields
(`expected`, `desired`, `swapping`) and the READ fields (`read_dest`,
`read_flags`) is flattened into one record; only the fields of the active
`operation` are ever used, like the C union.  `addr` models the node's
stack address, i.e. pointer identity: no operation ever writes it, so two
journal chains list the same C nodes exactly when their `addr` sequences
agree. -/
structure McasJournal where
  addr : Nat
  status : McasStatus
  operation : McasOperation
  expected : List Int
  desired : List Int
  swapping : Bool
  readDest : List Int
  readFlags : List Bool
  deriving DecidableEq, Repr

/-- Embeds `struct Mcas` (mcas.h): the word array `data` (`mcas_base_t` =
`intptr_t`, modelled as `Int`), its length `n_elems`, and the journal
chain.  The C `journal` head pointer plus the `operation_chain` links form
a NULL-terminated singly-linked list; it is modelled as the list of its
nodes in chain order. -/
structure Mcas where
  n_elems : Nat
  data : List Int
  journal : List McasJournal
  deriving DecidableEq, Repr

/-- Embeds the compare loop of `complete_mcas`
(`for (i...) if (atomic_load(&mcas->data[i]) != journal->expected[i])`):
`true` iff some index `i < n` has `data[i] != expected[i]`. -/
def existsMismatch (data expected : List Int) : Nat → Bool
  | 0 => false
  | n + 1 => existsMismatch data expected n || decide (data.getD n 0 ≠ expected.getD n 0)

/-- Embeds the store loop of `complete_mcas`
(`for (i...) atomic_store(&mcas->data[i], journal->desired[i])`). -/
def storeAll (data desired : List Int) : Nat → List Int
  | 0 => data
  | n + 1 => (storeAll data desired n).set n (desired.getD n 0)

/-- Embeds the copy loop of `complete_read`: for each `i < n` in order,
load `data[i]`, then `atomic_flag_test_and_set(&read_flags[i])`; the
context that finds the flag clear writes the loaded value into
`read_dest[i]`.  Returns the updated `(read_dest, read_flags)`. -/
def readLoop (data : List Int) : List Int → List Bool → Nat → List Int × List Bool
  | dest, flags, 0 => (dest, flags)
  | dest, flags, n + 1 =>
    let p := readLoop data dest flags n
    if p.2.getD n false then (p.1, p.2.set n true)
    else (p.1.set n (data.getD n 0), p.2.set n true)

/-- Embeds `complete_mcas` executed without interruption.  The strong CAS
`atomic_compare_exchange_strong(&journal->status, &status, FAILURE)` sees
the status it loaded at function entry (nothing ran in between), so in the
mismatch branch it installs `FAILURE`.  After a successful compare phase
the code sets `swapping := true` and falls through to the store phase. -/
def complete_mcas (n : Nat) (data : List Int) (j : McasJournal) : List Int × McasJournal :=
  if j.status = McasStatus.UNDEFINED then
    if j.swapping = false then
      if existsMismatch data j.expected n then
        (data, { j with status := McasStatus.FAILURE })
      else
        (storeAll data j.desired n,
         { j with swapping := true, status := McasStatus.SUCCESS })
    else
      (storeAll data j.desired n, { j with status := McasStatus.SUCCESS })
  else (data, j)

/-- Embeds `complete_read` executed without interruption. -/
def complete_read (n : Nat) (data : List Int) (j : McasJournal) : List Int × McasJournal :=
  if j.status = McasStatus.UNDEFINED then
    let p := readLoop data j.readDest j.readFlags n
    (data, { j with readDest := p.1, readFlags := p.2, status := McasStatus.SUCCESS })
  else (data, j)

/-- Embeds `complete_operation`: dispatch on the operation tag. -/
def complete_operation (n : Nat) (data : List Int) (j : McasJournal) : List Int × McasJournal :=
  match j.operation with
  | McasOperation.READ => complete_read n data j
  | McasOperation.CAS => complete_mcas n data j

/-- Embeds the help walk of `execute_operation`
(`for (j = journal head; j != NULL; j = j->operation_chain) complete_operation`),
threading the word array through the chain in order and returning the
updated chain. -/
def completeChain (n : Nat) : List Int → List McasJournal → List Int × List McasJournal
  | data, [] => (data, [])
  | data, j :: rest =>
    let p := complete_operation n data j
    let q := completeChain n p.1 rest
    (q.1, p.2 :: q.2)

/-- Embeds `execute_operation` executed without interruption:
`link_McasJournal` walks to the NULL tail slot and CAS-installs the new
entry there (appending it at the end of the chain), the help walk
completes every entry, and the unlink step stores the entry's
`operation_chain` (asserted NULL) into the parent slot, removing exactly
the appended tail entry.  Returns the updated `Mcas` together with the
final value of the caller's stack-resident journal entry. -/
def execute_operation (m : Mcas) (j : McasJournal) : Mcas × McasJournal :=
  let chain := m.journal ++ [j]
  let p := completeChain m.n_elems m.data chain
  ({ m with data := p.1, journal := p.2.dropLast }, p.2.getLastD j)

/-- Embeds `Mcas_compare_exchange`: build a CAS journal entry on the
stack (READ union fields unused, modelled as `[]`; `addr` is the entry's
stack address, irrelevant to the result), run `execute_operation`, and
return whether the entry's final status is `SUCCESS`. -/
def Mcas_compare_exchange (m : Mcas) (expected desired : List Int) : Bool × Mcas :=
  let j : McasJournal :=
    { addr := 0, status := McasStatus.UNDEFINED, operation := McasOperation.CAS,
      expected := expected, desired := desired, swapping := false,
      readDest := [], readFlags := [] }
  let p := execute_operation m j
  (decide (p.2.status = McasStatus.SUCCESS), p.1)

/-- Embeds `Mcas_read`: clear a stack array of `n_elems` flags, build a
READ journal entry pointing at the caller's `dest` array, run
`execute_operation`, and return `true` together with the updated state
and the final contents of `dest`. -/
def Mcas_read (m : Mcas) (dest : List Int) : Bool × Mcas × List Int :=
  let j : McasJournal :=
    { addr := 0, status := McasStatus.UNDEFINED, operation := McasOperation.READ,
      expected := [], desired := [], swapping := false,
      readDest := dest, readFlags := List.replicate m.n_elems false }
  let p := execute_operation m j
  (true, p.1, p.2.readDest)

/- ======= Nested queue, MCAS-backed revision (nested_queue.c) ======= -/

/-- Embeds the C enum `NestedQueueOperationOrder`. -/
inductive NestedQueueOperationOrder
  | NESTED
  | FCFS
  deriving DecidableEq, Repr

/-- Modelled from the spec: the MCAS-backed `nested_queue.h` (the header
declaring the index-name constants) is not among the sources; the spec
says the complete state lives in a 6-word MCAS array indexed by
`WRITE_ALLOCATED`, `WRITE_COMMITTED`, `READ_ACQUIRED`, `READ_RELEASED`,
`COUNT_WRITABLE`, `COUNT_READABLE`.  They are assigned slots 0..5 in that
order. -/
def NESTED_QUEUE_WRITE_ALLOCATED : Nat := 0

/-- Modelled from the spec: see `NESTED_QUEUE_WRITE_ALLOCATED`. -/
def NESTED_QUEUE_WRITE_COMMITTED : Nat := 1

/-- Modelled from the spec: see `NESTED_QUEUE_WRITE_ALLOCATED`. -/
def NESTED_QUEUE_READ_ACQUIRED : Nat := 2

/-- Modelled from the spec: see `NESTED_QUEUE_WRITE_ALLOCATED`. -/
def NESTED_QUEUE_READ_RELEASED : Nat := 3

/-- Modelled from the spec: see `NESTED_QUEUE_WRITE_ALLOCATED`. -/
def NESTED_QUEUE_COUNT_WRITABLE : Nat := 4

/-- Modelled from the spec: see `NESTED_QUEUE_WRITE_ALLOCATED`. -/
def NESTED_QUEUE_COUNT_READABLE : Nat := 5

/-- Modelled from the spec: see `NESTED_QUEUE_WRITE_ALLOCATED`. -/
def NESTED_QUEUE_NUMBER_OF_INDEXES : Nat := 6

/-- Embeds `struct NestedQueue` of the MCAS-backed revision: the 6-word
index vector (held in an `Mcas`, here just its word contents since the
claims run without interruption and the journal is empty at rest), the
capacity, the element size, and the two ordering-discipline tags.  A
`void *` slot pointer into `data` is modelled as its byte offset from
`data`. -/
structure NestedQueue where
  n_elems : Nat
  elem_size : Nat
  indexes : List Int
  write_order : NestedQueueOperationOrder
  read_order : NestedQueueOperationOrder
  deriving DecidableEq, Repr

/-- Embeds `idx_to_ptr`: `(char *)q->data + (q->elem_size * index)`,
as a byte offset from `q->data`. -/
def idx_to_ptr (q : NestedQueue) (index : Nat) : Nat := q.elem_size * index

/-- Embeds `ptr_to_idx`: `((char *)ptr - (char *)q->data) / q->elem_size`. -/
def ptr_to_idx (q : NestedQueue) (ptr : Nat) : Nat := ptr / q.elem_size

/-- Modelled from the spec: the static initializer of the MCAS-backed
revision is in the missing header.  A fresh queue has all four head
indices 0, `COUNT_WRITABLE = n_elems` (all slots free) and
`COUNT_READABLE = 0`. -/
def NestedQueue_fresh (n_elems elem_size : Nat)
    (wo ro : NestedQueueOperationOrder) : NestedQueue :=
  { n_elems := n_elems, elem_size := elem_size,
    indexes := [0, 0, 0, 0, (n_elems : Int), 0],
    write_order := wo, read_order := ro }

/-- Embeds `NestedQueue_acquire` of the MCAS-backed revision executed
without interruption: `Mcas_read` of the index vector yields the current
words, and the closing `Mcas_compare_exchange` succeeds on the first
attempt, so the do/while body runs once.  If the count word is zero the
function returns NULL before mutating anything; otherwise it advances the
acquire index modulo `n_elems`, decrements the count, and returns the
slot at the pre-advance index. -/
def NestedQueue_acquire (q : NestedQueue) (count_idx acquire_idx : Nat) :
    Option Nat × NestedQueue :=
  let old := q.indexes
  if old.getD count_idx 0 = 0 then (none, q)
  else
    let n1 := old.set acquire_idx ((old.getD acquire_idx 0 + 1) % (q.n_elems : Int))
    let n2 := n1.set count_idx (n1.getD count_idx 0 - 1)
    (some (idx_to_ptr q (old.getD acquire_idx 0).toNat), { q with indexes := n2 })

/-- Embeds `NestedQueue_commit` of the MCAS-backed revision executed
without interruption (the closing `Mcas_compare_exchange` succeeds on the
first attempt).  Under NESTED order: if the slot is not at the commit
index, return with no mutation; otherwise set the commit index to the
acquire index and add `(old[acquire] + n_elems - new[commit]) % n_elems`
to the count word, exactly as the C source computes it — note the C code
reads `new_indexes[commit_idx]` *after* overwriting it with
`old_indexes[acquire_idx]`.  Under FCFS order: the C `assert` that the
slot is at the commit index is modelled as returning unchanged when it
fails; otherwise advance the commit index by one modulo `n_elems` and add
one to the count word. -/
def NestedQueue_commit (q : NestedQueue) (commit_idx acquire_idx count_idx : Nat)
    (slot_ptr : Nat) (order : NestedQueueOperationOrder) : NestedQueue :=
  let idx : Int := (ptr_to_idx q slot_ptr : Nat)
  match order with
  | NestedQueueOperationOrder.NESTED =>
    let old := q.indexes
    if old.getD commit_idx 0 ≠ idx then q
    else
      let n1 := old.set commit_idx (old.getD acquire_idx 0)
      let n2 := n1.set count_idx
        (n1.getD count_idx 0 +
          (old.getD acquire_idx 0 + (q.n_elems : Int) - n1.getD commit_idx 0)
            % (q.n_elems : Int))
      { q with indexes := n2 }
  | NestedQueueOperationOrder.FCFS =>
    let old := q.indexes
    if old.getD commit_idx 0 ≠ idx then q
    else
      let n1 := old.set commit_idx ((old.getD commit_idx 0 + 1) % (q.n_elems : Int))
      let n2 := n1.set count_idx (n1.getD count_idx 0 + 1)
      { q with indexes := n2 }

/-- Embeds `NestedQueue_write_acquire`. -/
def NestedQueue_write_acquire (q : NestedQueue) : Option Nat × NestedQueue :=
  NestedQueue_acquire q NESTED_QUEUE_COUNT_WRITABLE NESTED_QUEUE_WRITE_ALLOCATED

/-- Embeds `NestedQueue_write_commit`. -/
def NestedQueue_write_commit (q : NestedQueue) (slot : Nat) : NestedQueue :=
  NestedQueue_commit q NESTED_QUEUE_WRITE_COMMITTED NESTED_QUEUE_WRITE_ALLOCATED
    NESTED_QUEUE_COUNT_READABLE slot q.write_order

/-- Embeds `NestedQueue_read_acquire`. -/
def NestedQueue_read_acquire (q : NestedQueue) : Option Nat × NestedQueue :=
  NestedQueue_acquire q NESTED_QUEUE_COUNT_READABLE NESTED_QUEUE_READ_ACQUIRED

/-- Embeds `NestedQueue_read_release`. -/
def NestedQueue_read_release (q : NestedQueue) (slot : Nat) : NestedQueue :=
  NestedQueue_commit q NESTED_QUEUE_READ_RELEASED NESTED_QUEUE_READ_ACQUIRED
    NESTED_QUEUE_COUNT_WRITABLE slot q.read_order

/-- Runs `NestedQueue_write_acquire` a given number of times, collecting
the returned slot pointers in call order. -/
def writeAcquireN : Nat → NestedQueue → List (Option Nat) × NestedQueue
  | 0, q => ([], q)
  | k + 1, q =>
    let p := writeAcquireN k q
    let r := NestedQueue_write_acquire p.2
    (p.1 ++ [r.1], r.2)

/- ===================== Double buffer (double_buffer.c) ===================== -/

/-- Embeds `struct DoubleBuffer`.  The two-slot data array holds `Int`
values (`slotA` at `db->data`, `slotB` at `db->data + elem_size`); the
pointers `selected_read` and `next_read` are modelled as
`Option Bool` — `some false` is the address of `slotA`, `some true` that
of `slotB`, and `none` is NULL. -/
structure DoubleBuffer where
  selected_read : Option Bool
  next_read : Option Bool
  n_readers : Int
  write_mutex : Bool
  slotA : Int
  slotB : Int
  deriving DecidableEq, Repr

/-- Embeds `DoubleBuffer_write_acquire` executed without interruption:
the test-and-set of `write_mutex` fails (returns NULL) if it was set;
otherwise the quiesce loop `last = load(selected_read); old =
exchange(next_read, last)` reaches its fixed point with
`next_read = selected_read`, and the slot other than `selected_read` is
returned. -/
def DoubleBuffer_write_acquire (db : DoubleBuffer) : Option Bool × DoubleBuffer :=
  if db.write_mutex then (none, db)
  else
    let db1 := { db with write_mutex := true, next_read := db.selected_read }
    let acquired : Bool := if db.selected_read = some false then true else false
    (some acquired, db1)

/-- Embeds `DoubleBuffer_write_commit` as in `src/src/double_buffer.c`
(no NULL check): store `slot` into `next_read`, clear `write_mutex`. -/
def DoubleBuffer_write_commit (db : DoubleBuffer) (slot : Option Bool) : DoubleBuffer :=
  { db with next_read := slot, write_mutex := false }

/-- Embeds the other revision of `DoubleBuffer_write_commit` (the one
with `if (slot == NULL) return;`): a NULL slot makes the call a complete
no-op; otherwise store `slot` into `next_read` and clear `write_mutex`. -/
def DoubleBuffer_write_commit_nullcheck (db : DoubleBuffer) (slot : Option Bool) :
    DoubleBuffer :=
  if slot = none then db
  else { db with next_read := slot, write_mutex := false }

/-- Embeds `DoubleBuffer_read_acquire` executed without interruption:
`atomic_fetch_add(&n_readers, 1)` returns the previous count; the first
reader's adopt loop reaches its fixed point with
`selected_read = next_read`; the current `selected_read` is returned. -/
def DoubleBuffer_read_acquire (db : DoubleBuffer) : Option Bool × DoubleBuffer :=
  let prev := db.n_readers
  let db1 := { db with n_readers := db.n_readers + 1 }
  let db2 := if prev = 0 then { db1 with selected_read := db1.next_read } else db1
  (db2.selected_read, db2)

/-- Embeds `DoubleBuffer_read_release` as in `src/src/double_buffer.c`:
the slot argument is ignored and `n_readers` is decremented. -/
def DoubleBuffer_read_release (db : DoubleBuffer) (slot : Option Bool) : DoubleBuffer :=
  { db with n_readers := db.n_readers - 1 }

/-- Models the caller storing value `v` through the slot pointer returned
by `DoubleBuffer_write_acquire`. -/
def writeSlot (db : DoubleBuffer) (slot : Bool) (v : Int) : DoubleBuffer :=
  if slot then { db with slotB := v } else { db with slotA := v }

/-- Models the caller loading the value behind a slot pointer returned by
`DoubleBuffer_read_acquire`. -/
def getSlot (db : DoubleBuffer) (slot : Bool) : Int :=
  if slot then db.slotB else db.slotA

/-- A `DoubleBuffer` as produced by `DOUBLE_BUFFER_STATIC_INIT` over a
zeroed two-slot array: both read pointers at `slotA`, no readers, write
mutex clear. -/
def dbInit : DoubleBuffer :=
  { selected_read := some false, next_read := some false,
    n_readers := 0, write_mutex := false, slotA := 0, slotB := 0 }

/- ===================== Memory bag (membag.c) ===================== -/

/-- Embeds `struct Membag`: the `alloc_status` test-and-set flag array
and the signed counter `n_free`.  A slot pointer into `data` is modelled
as its index (the C code converts between the two with the base pointer
and `elem_size`); NULL is `none`. -/
structure Membag where
  n_elems : Nat
  alloc_status : List Bool
  n_free : Int
  deriving DecidableEq, Repr

/-- Embeds `Membag_init`: `n_free := n_elems` and every flag cleared. -/
def Membag_init (m : Membag) : Membag :=
  { m with n_free := (m.n_elems : Int),
           alloc_status := List.replicate m.n_elems false }

/-- Embeds `Membag_acquire` executed without interruption.
`atomic_fetch_sub(&n_free, 1)` yields the pre-decrement value `acquired`;
if `acquired > 0` fails, the decrement is undone and NULL returned.
Otherwise the scan `while (test_and_set(alloc_status[i])) i = (i+1) % N`
starts at 0 and, run without interruption, stops at the first clear flag
(visiting indices in ascending order before any wrap-around); if no flag
is clear it never terminates, which is modelled by the outer `Option`
being `none`. -/
def Membag_acquire (m : Membag) : Option (Option Nat × Membag) :=
  let acquired := m.n_free
  let m1 : Membag := { m with n_free := m.n_free - 1 }
  if ¬ acquired > 0 then some (none, { m1 with n_free := m1.n_free + 1 })
  else
    match m1.alloc_status.findIdx? (fun b => !b) with
    | some i => some (some i, { m1 with alloc_status := m1.alloc_status.set i true })
    | none => none

/-- Embeds `Membag_release`: `if (element == NULL) return;`, otherwise
clear the slot's flag and increment `n_free`. -/
def Membag_release (m : Membag) (element : Option Nat) : Membag :=
  match element with
  | none => m
  | some idx =>
    { m with alloc_status := m.alloc_status.set idx false, n_free := m.n_free + 1 }

/- ===================== Intrusive singly-linked list (slist.c) ===================== -/

/-- Embeds `struct SlistNode`: the `deleting` flag and the `next`
pointer, with node addresses modelled as `Nat` and NULL as `none`. -/
structure SlistNode where
  deleting : Bool
  next : Option Nat
  deriving DecidableEq, Repr

/-- Embeds `Slist_append` executed without interruption: refuse (return
NULL, touching nothing) if `node->deleting` is set; otherwise clear
`new->deleting`, load `node->next`, store it into `new->next`, and the
CAS installing `new` at `node->next` succeeds on the first attempt.
`newAddr` is the address of `new`; the returned triple is (return value,
final `node`, final `new`). -/
def Slist_append (node new : SlistNode) (newAddr : Nat) :
    Option Nat × SlistNode × SlistNode :=
  if node.deleting then (none, node, new)
  else
    (some newAddr, { node with next := some newAddr },
     { deleting := false, next := node.next })

/- ===================== Helper lemmas ===================== -/

theorem list_getD_set_self (l : List Int) (i : Nat) (a d : Int) (h : i < l.length) :
    (l.set i a).getD i d = a := by
  rw [List.getD_eq_getElem _ _ (by simpa using h), List.getElem_set_self]

theorem list_getD_set_ne (l : List Int) (i j : Nat) (a d : Int) (h : i ≠ j) :
    (l.set i a).getD j d = l.getD j d := by
  simp [List.getD, List.getElem?_set_ne h]

theorem bool_getD_set_self (l : List Bool) (i : Nat) (a d : Bool) (h : i < l.length) :
    (l.set i a).getD i d = a := by
  rw [List.getD_eq_getElem _ _ (by simpa using h), List.getElem_set_self]

theorem bool_getD_set_ne (l : List Bool) (i j : Nat) (a d : Bool) (h : i ≠ j) :
    (l.set i a).getD j d = l.getD j d := by
  simp [List.getD, List.getElem?_set_ne h]

theorem list_ext_getD (l₁ l₂ : List Int) (d : Int) (hlen : l₁.length = l₂.length)
    (h : ∀ i, l₁.getD i d = l₂.getD i d) : l₁ = l₂ := by
  apply List.ext_getElem hlen
  intro i h1 h2
  have hi := h i
  rwa [List.getD_eq_getElem _ _ h1, List.getD_eq_getElem _ _ h2] at hi

theorem existsMismatch_eq_false (data e : List Int) (n : Nat) :
    existsMismatch data e n = false ↔ ∀ i < n, data.getD i 0 = e.getD i 0 := by
  induction n with
  | zero => simp [existsMismatch]
  | succ k ih =>
    simp only [existsMismatch, Bool.or_eq_false_iff, ih, decide_eq_false_iff_not,
      Decidable.not_not]
    constructor
    · rintro ⟨h1, h2⟩ i hi
      rcases Nat.lt_succ_iff_lt_or_eq.mp hi with h | h
      · exact h1 i h
      · exact h ▸ h2
    · intro h
      exact ⟨fun i hi => h i (Nat.lt_succ_of_lt hi), h k (Nat.lt_succ_self k)⟩

theorem storeAll_length (data desired : List Int) (k : Nat) :
    (storeAll data desired k).length = data.length := by
  induction k with
  | zero => rfl
  | succ n ih => simpa [storeAll] using ih

theorem storeAll_getD (data desired : List Int) (k : Nat) (hk : k ≤ data.length) (i : Nat) :
    (storeAll data desired k).getD i 0 =
      if i < k then desired.getD i 0 else data.getD i 0 := by
  induction k with
  | zero => simp [storeAll]
  | succ n ih =>
    by_cases hi : i = n
    · subst hi
      rw [storeAll, list_getD_set_self _ _ _ _
        (by rw [storeAll_length]; omega)]
      simp
    · rw [storeAll, list_getD_set_ne _ _ _ _ _ (fun h => hi h.symm),
        ih (by omega)]
      rcases Nat.lt_or_ge i n with h2 | h2
      · rw [if_pos h2, if_pos (by omega)]
      · rw [if_neg (by omega), if_neg (by omega)]

theorem storeAll_eq (data desired : List Int) (n : Nat)
    (hd : data.length = n) (he : desired.length = n) :
    storeAll data desired n = desired := by
  apply list_ext_getD _ _ 0 (by rw [storeAll_length, hd, he])
  intro i
  rw [storeAll_getD data desired n (by omega) i]
  by_cases hi : i < n
  · simp [hi]
  · rw [if_neg hi, List.getD_eq_default _ _ (by omega),
      List.getD_eq_default _ _ (by omega)]

theorem readLoop_spec (data dest : List Int) (n k : Nat) (hk : k ≤ n)
    (hd : n ≤ dest.length) :
    ((readLoop data dest (List.replicate n false) k).1.length = dest.length) ∧
    ((readLoop data dest (List.replicate n false) k).2.length = n) ∧
    (∀ i, (readLoop data dest (List.replicate n false) k).2.getD i false =
        decide (i < k)) ∧
    (∀ i, (readLoop data dest (List.replicate n false) k).1.getD i 0 =
        if i < k then data.getD i 0 else dest.getD i 0) := by
  induction k with
  | zero =>
    refine ⟨rfl, by simp [readLoop], ?_, by simp [readLoop]⟩
    intro i
    show (List.replicate n false).getD i false = _
    simp [List.getD, List.getElem?_replicate]
    split <;> rfl
  | succ m ih =>
    obtain ⟨ih1, ih2, ih3, ih4⟩ := ih (by omega)
    have htest : (readLoop data dest (List.replicate n false) m).2.getD m false = false := by
      rw [ih3 m]; simp
    refine ⟨?_, ?_, ?_, ?_⟩
    · rw [readLoop]; simp only [htest, Bool.false_eq_true, if_false]
      simpa using ih1
    · rw [readLoop]; simp only [htest, Bool.false_eq_true, if_false]
      simpa using ih2
    · intro i
      rw [readLoop]; simp only [htest, Bool.false_eq_true, if_false]
      by_cases hi : i = m
      · subst hi
        rw [bool_getD_set_self _ _ _ _ (by omega)]
        simp
      · rw [bool_getD_set_ne _ _ _ _ _ (fun h => hi h.symm), ih3 i]
        rcases Nat.lt_or_ge i m with h2 | h2
        · rw [decide_eq_true h2, decide_eq_true (by omega)]
        · rw [decide_eq_false (by omega), decide_eq_false (by omega)]
    · intro i
      rw [readLoop]; simp only [htest, Bool.false_eq_true, if_false]
      by_cases hi : i = m
      · subst hi
        rw [list_getD_set_self _ _ _ _ (by omega)]
        simp
      · rw [list_getD_set_ne _ _ _ _ _ (fun h => hi h.symm), ih4 i]
        rcases Nat.lt_or_ge i m with h2 | h2
        · rw [if_pos h2, if_pos (by omega)]
        · rw [if_neg (by omega), if_neg (by omega)]

theorem readLoop_full (data dest : List Int) (n : Nat)
    (hdata : data.length = n) (hdest : dest.length = n) :
    (readLoop data dest (List.replicate n false) n).1 = data := by
  obtain ⟨h1, _, _, h4⟩ := readLoop_spec data dest n n (le_refl n) (by omega)
  apply list_ext_getD _ _ 0 (by rw [h1, hdest, hdata])
  intro i
  rw [h4 i]
  by_cases hi : i < n
  · simp [hi]
  · rw [if_neg hi, List.getD_eq_default _ _ (by omega),
      List.getD_eq_default _ _ (by omega)]

theorem execute_operation_empty (m : Mcas) (j : McasJournal) (h : m.journal = []) :
    execute_operation m j =
      ({ m with data := (complete_operation m.n_elems m.data j).1, journal := [] },
       (complete_operation m.n_elems m.data j).2) := by
  simp [execute_operation, completeChain, h]

theorem complete_operation_addr (n : Nat) (data : List Int) (j : McasJournal) :
    (complete_operation n data j).2.addr = j.addr := by
  unfold complete_operation complete_read complete_mcas
  cases j.operation <;> dsimp only <;> split_ifs <;> rfl

theorem complete_mcas_expected (n : Nat) (data : List Int) (j : McasJournal) :
    (complete_mcas n data j).2.expected = j.expected := by
  unfold complete_mcas
  split_ifs <;> rfl

theorem completeChain_map_addr (n : Nat) (data : List Int) (ch : List McasJournal) :
    (completeChain n data ch).2.map McasJournal.addr = ch.map McasJournal.addr := by
  induction ch generalizing data with
  | nil => rfl
  | cons j rest ih => simp [completeChain, complete_operation_addr, ih]

theorem execute_operation_journal (m : Mcas) (j : McasJournal) :
    (execute_operation m j).1.journal.map McasJournal.addr =
      m.journal.map McasJournal.addr ∧
    (execute_operation m j).1.n_elems = m.n_elems := by
  constructor
  · have h1 : (execute_operation m j).1.journal =
        (completeChain m.n_elems m.data (m.journal ++ [j])).2.dropLast := rfl
    rw [h1, List.map_dropLast, completeChain_map_addr, List.map_append]
    simp
  · rfl

/- ===================== Claim theorems ===================== -/

/-- Claim C1: for every `Mcas` with word array of length `n_elems` and
arrays `expected`, `desired` of that length, `Mcas_compare_exchange` run
without interruption (quiescent, empty journal) returns `true` and sets
`data` to `desired` when `data[i] == expected[i]` componentwise, and
otherwise returns `false`, leaves `data` unchanged, and never writes the
observed values back into the journal entry's `expected` array. -/
theorem mcas_compare_exchange_uninterrupted (m : Mcas) (e d : List Int)
    (hj : m.journal = []) (hm : m.data.length = m.n_elems)
    (he : e.length = m.n_elems) (hd : d.length = m.n_elems) :
    ((∀ i < m.n_elems, m.data.getD i 0 = e.getD i 0) →
        (Mcas_compare_exchange m e d).1 = true ∧
        (Mcas_compare_exchange m e d).2.data = d) ∧
    ((¬ ∀ i < m.n_elems, m.data.getD i 0 = e.getD i 0) →
        (Mcas_compare_exchange m e d).1 = false ∧
        (Mcas_compare_exchange m e d).2.data = m.data) ∧
    (∀ j : McasJournal, (complete_mcas m.n_elems m.data j).2.expected = j.expected) := by
  obtain ⟨N, data, jl⟩ := m
  simp only at hj hm he hd ⊢
  subst hj
  refine ⟨?_, ?_, fun j => complete_mcas_expected _ _ j⟩
  · intro hall
    have hmm : existsMismatch data e N = false := (existsMismatch_eq_false _ _ _).mpr hall
    constructor
    · simp [Mcas_compare_exchange, execute_operation, completeChain,
        complete_operation, complete_mcas, hmm]
    · simp [Mcas_compare_exchange, execute_operation, completeChain,
        complete_operation, complete_mcas, hmm]
      exact storeAll_eq data d N hm hd
  · intro hnall
    cases hcase : existsMismatch data e N with
    | false => exact absurd ((existsMismatch_eq_false _ _ _).mp hcase) hnall
    | true =>
      constructor
      · simp [Mcas_compare_exchange, execute_operation, completeChain,
          complete_operation, complete_mcas, hcase]
      · simp [Mcas_compare_exchange, execute_operation, completeChain,
          complete_operation, complete_mcas, hcase]

/-- Claim C1 witness: the spec's concrete scenario — `data = [5,6]`,
`compare_exchange([5,7],[9,9])` returns `false` and `data` stays `[5,6]`. -/
theorem mcas_compare_exchange_uninterrupted_witness :
    (Mcas_compare_exchange ⟨2, [5, 6], []⟩ [5, 7] [9, 9]).1 = false ∧
    (Mcas_compare_exchange ⟨2, [5, 6], []⟩ [5, 7] [9, 9]).2.data = [5, 6] :=
  (mcas_compare_exchange_uninterrupted ⟨2, [5, 6], []⟩ [5, 7] [9, 9]
    rfl rfl rfl rfl).2.1 (by decide)

/-- Claim C7: `Mcas_read` always returns `true`, and executed without
interruption (journal empty on entry, arrays of length `n_elems`) it
stores the current `data[i]` into `dest[i]` for every `i`. -/
theorem mcas_read_always_succeeds (m : Mcas) (dest : List Int) :
    (Mcas_read m dest).1 = true ∧
    (m.journal = [] → m.data.length = m.n_elems → dest.length = m.n_elems →
      (Mcas_read m dest).2.2 = m.data) := by
  constructor
  · rfl
  · intro hj hm hd
    obtain ⟨N, data, jl⟩ := m
    simp only at hj hm hd ⊢
    subst hj
    simp [Mcas_read, execute_operation, completeChain, complete_operation,
      complete_read]
    exact readLoop_full data dest N hm hd

/-- Claim C7 witness: reading a concrete two-word MCAS. -/
theorem mcas_read_always_succeeds_witness :
    (Mcas_read ⟨2, [3, 4], []⟩ [0, 0]).1 = true ∧
    (Mcas_read ⟨2, [3, 4], []⟩ [0, 0]).2.2 = [3, 4] :=
  ⟨(mcas_read_always_succeeds ⟨2, [3, 4], []⟩ [0, 0]).1,
   (mcas_read_always_succeeds ⟨2, [3, 4], []⟩ [0, 0]).2 rfl rfl rfl⟩

/-- Claim C8: both `Mcas_read` and `Mcas_compare_exchange` restore the
journal on exit — the caller's stack entry is appended during the call
and unlinked before return, so the chain after the call consists of
exactly the same nodes (same addresses, in order) as on entry, and
`n_elems` is unchanged.  (Node identity is stated via the `addr` field
because helping may advance the `status` of pre-existing entries; the C
claim is about the pointer chain, not those mutable fields.) -/
theorem mcas_operations_restore_journal (m : Mcas) (e d dest : List Int) :
    ((Mcas_compare_exchange m e d).2.journal.map McasJournal.addr =
        m.journal.map McasJournal.addr ∧
      (Mcas_compare_exchange m e d).2.n_elems = m.n_elems) ∧
    ((Mcas_read m dest).2.1.journal.map McasJournal.addr =
        m.journal.map McasJournal.addr ∧
      (Mcas_read m dest).2.1.n_elems = m.n_elems) :=
  ⟨execute_operation_journal m _, execute_operation_journal m _⟩

/-- Claim C9: `Slist_append(node, new)` returns NULL and changes nothing
when `node->deleting` is set; otherwise (run without interruption) it
clears `new->deleting`, links `new->next` to node's previous next, sets
`node->next` to `new`, and returns `new`. -/
theorem slist_append_behaviour (node new : SlistNode) (newAddr : Nat) :
    (node.deleting = true → Slist_append node new newAddr = (none, node, new)) ∧
    (node.deleting = false →
      Slist_append node new newAddr =
        (some newAddr, { node with next := some newAddr },
         { deleting := false, next := node.next })) := by
  constructor <;> intro h <;> simp [Slist_append, h]

/-- Claim C9 witness: appending to a deleting node refuses and leaves
both nodes untouched. -/
theorem slist_append_behaviour_witness :
    Slist_append ⟨true, none⟩ ⟨false, some 3⟩ 7 = (none, ⟨true, none⟩, ⟨false, some 3⟩) :=
  (slist_append_behaviour ⟨true, none⟩ ⟨false, some 3⟩ 7).1 rfl

/-- Claim C10: `Membag_release(membag, NULL)` returns immediately and
modifies nothing, for every bag state. -/
theorem membag_release_null_noop (m : Membag) : Membag_release m none = m := rfl

/-- Claim C3 counterexample: in the `src/src/double_buffer.c` revision,
`DoubleBuffer_write_commit(db, NULL)` is NOT a no-op — on a buffer whose
writer holds the lock it overwrites `next_read` with NULL and clears
`write_mutex`. -/
theorem double_buffer_write_commit_null_not_noop :
    DoubleBuffer_write_commit ⟨some false, some false, 0, true, 0, 0⟩ none ≠
      ⟨some false, some false, 0, true, 0, 0⟩ := by decide

/-- Claim C3 (amended): in the revision carrying the
`if (slot == NULL) return;` guard, `DoubleBuffer_write_commit(db, NULL)`
is a complete no-op: every field of the buffer keeps its value. -/
theorem double_buffer_write_commit_nullcheck_noop (db : DoubleBuffer) :
    DoubleBuffer_write_commit_nullcheck db none = db := rfl

/-- The N=2 bag of the spec scenario, after `MEMBAG_STATIC_INIT` plus
`Membag_init`. -/
def bag2 : Membag := Membag_init { n_elems := 2, alloc_status := [], n_free := 0 }

/-- Claim C4: `Membag_acquire` decrements `n_free`; when the value the
atomic decrement returns fails the `> 0` test (i.e. `n_free` was ≤ 0 at
entry, so the decremented counter is below zero), it restores the
counter and returns NULL with the bag unchanged; otherwise it
test-and-set-scans the flag array from index 0 and returns the slot of
the first previously-clear flag.  The spec scenario: with N=2, two
acquires return the distinct slots 0 and 1, a third returns NULL leaving
the bag intact, and after releasing slot 0 the next acquire returns
exactly slot 0. -/
theorem membag_acquire_behaviour (m : Membag) :
    (m.n_free ≤ 0 → Membag_acquire m = some (none, m)) ∧
    (0 < m.n_free → ∀ i, m.alloc_status.findIdx? (fun b => !b) = some i →
        Membag_acquire m = some (some i,
          { m with n_free := m.n_free - 1,
                   alloc_status := m.alloc_status.set i true })) ∧
    (Membag_acquire bag2 = some (some 0, ⟨2, [true, false], 1⟩) ∧
     Membag_acquire ⟨2, [true, false], 1⟩ = some (some 1, ⟨2, [true, true], 0⟩) ∧
     Membag_acquire ⟨2, [true, true], 0⟩ = some (none, ⟨2, [true, true], 0⟩) ∧
     Membag_release ⟨2, [true, true], 0⟩ (some 0) = ⟨2, [false, true], 1⟩ ∧
     Membag_acquire ⟨2, [false, true], 1⟩ = some (some 0, ⟨2, [true, true], 0⟩)) := by
  refine ⟨?_, ?_, by decide⟩
  · intro h
    have h' : ¬ m.n_free > 0 := by omega
    simp [Membag_acquire, h', Int.sub_add_cancel]
  · intro h i hf
    simp [Membag_acquire, h, hf]

/-- Claim C4 witness: the exhausted bag returns NULL and stays intact. -/
theorem membag_acquire_behaviour_witness :
    Membag_acquire ⟨2, [true, true], 0⟩ = some (none, ⟨2, [true, true], 0⟩) :=
  (membag_acquire_behaviour ⟨2, [true, true], 0⟩).1 (by decide)

/- Double-buffer two-write scenario states (spec scenario 1). -/

/-- State after the first `DoubleBuffer_write_acquire` on `dbInit`. -/
def db1 : DoubleBuffer := (DoubleBuffer_write_acquire dbInit).2

/-- State after writing 7 into the acquired slot and committing it. -/
def db2 : DoubleBuffer := DoubleBuffer_write_commit (writeSlot db1 true 7) (some true)

/-- State after the first reader's `DoubleBuffer_read_acquire`. -/
def db3 : DoubleBuffer := (DoubleBuffer_read_acquire db2).2

/-- State after the first reader's `DoubleBuffer_read_release`. -/
def db4 : DoubleBuffer := DoubleBuffer_read_release db3 (some true)

/-- State after the second `DoubleBuffer_write_acquire`. -/
def db5 : DoubleBuffer := (DoubleBuffer_write_acquire db4).2

/-- State after writing 11 into the newly acquired slot and committing it. -/
def db6 : DoubleBuffer := DoubleBuffer_write_commit (writeSlot db5 false 11) (some false)

/-- State after the second fresh reader's `DoubleBuffer_read_acquire`. -/
def db7 : DoubleBuffer := (DoubleBuffer_read_acquire db6).2

/-- Claim C6: after a completed write sequence (acquire slot `s`, store
`v`, commit `s`), the next `DoubleBuffer_read_acquire` whose `n_readers`
increment transitions 0→1 returns exactly slot `s` and observes `v`; and
in the spec's two-write scenario the first reader observes 7 and the
second fresh reader observes 11. -/
theorem double_buffer_commit_then_fresh_read (db : DoubleBuffer) (v : Int)
    (hw : db.write_mutex = false) (hr : db.n_readers = 0) :
    (∃ s : Bool,
      (DoubleBuffer_write_acquire db).1 = some s ∧
      (DoubleBuffer_read_acquire (DoubleBuffer_write_commit
          (writeSlot (DoubleBuffer_write_acquire db).2 s v) (some s))).1 = some s ∧
      getSlot (DoubleBuffer_read_acquire (DoubleBuffer_write_commit
          (writeSlot (DoubleBuffer_write_acquire db).2 s v) (some s))).2 s = v) ∧
    ((DoubleBuffer_write_acquire dbInit).1 = some true ∧
     (DoubleBuffer_read_acquire db2).1 = some true ∧
     getSlot db3 true = 7 ∧
     (DoubleBuffer_write_acquire db4).1 = some false ∧
     (DoubleBuffer_read_acquire db6).1 = some false ∧
     getSlot db7 false = 11) := by
  refine ⟨?_, by decide⟩
  by_cases hsel : db.selected_read = some false
  · exact ⟨true, by
      simp [DoubleBuffer_write_acquire, DoubleBuffer_write_commit,
        DoubleBuffer_read_acquire, writeSlot, getSlot, hw, hr, hsel]⟩
  · exact ⟨false, by
      simp [DoubleBuffer_write_acquire, DoubleBuffer_write_commit,
        DoubleBuffer_read_acquire, writeSlot, getSlot, hw, hr, hsel]⟩

/-- Claim C6 witness: the fresh-buffer instance of the general
commit-then-read property at `v = 7`. -/
theorem double_buffer_commit_then_fresh_read_witness :
    ∃ s : Bool,
      (DoubleBuffer_write_acquire dbInit).1 = some s ∧
      (DoubleBuffer_read_acquire (DoubleBuffer_write_commit
          (writeSlot (DoubleBuffer_write_acquire dbInit).2 s 7) (some s))).1 = some s ∧
      getSlot (DoubleBuffer_read_acquire (DoubleBuffer_write_commit
          (writeSlot (DoubleBuffer_write_acquire dbInit).2 s 7) (some s))).2 s = 7 :=
  (double_buffer_commit_then_fresh_read dbInit 7 rfl rfl).1

theorem writeAcquireN_fresh (N e : Nat) (wo ro : NestedQueueOperationOrder)
    (hN : 1 ≤ N) (k : Nat) (hk : k ≤ N) :
    writeAcquireN k (NestedQueue_fresh N e wo ro) =
      ((List.range k).map (fun i => some (e * i)),
       ⟨N, e, [((k % N : Nat) : Int), 0, 0, 0, ((N - k : Nat) : Int), 0], wo, ro⟩) := by
  induction k with
  | zero => simp [writeAcquireN, NestedQueue_fresh]
  | succ m ih =>
    have hm : m % N = m := Nat.mod_eq_of_lt (by omega)
    have hcount : ((N - m : Nat) : Int) ≠ 0 := by
      have h0 : 0 < N - m := by omega
      exact_mod_cast h0.ne'
    have h1 : ((m % N : Nat) : Int) + 1 = ((m + 1 : Nat) : Int) := by
      rw [hm]; push_cast; ring
    have h3 : (((m % N : Nat) : Int) + 1) % (N : Int) = (((m + 1) % N : Nat) : Int) := by
      rw [h1, Int.natCast_mod]
    have h2 : ((N - m : Nat) : Int) - 1 = ((N - (m + 1) : Nat) : Int) := by
      push_cast [show m ≤ N from by omega, show m + 1 ≤ N from by omega]; ring
    simp only [writeAcquireN]
    rw [ih (by omega)]
    simp [NestedQueue_write_acquire, NestedQueue_acquire, idx_to_ptr,
      NESTED_QUEUE_COUNT_WRITABLE, NESTED_QUEUE_WRITE_ALLOCATED, hcount,
      List.range_succ, h3, h2, hm]

/-- Claim C5: `NestedQueue_write_acquire` returns NULL exactly when
`COUNT_WRITABLE` is 0; on a freshly initialized queue of capacity
`N ≥ 1` (positive element size), the first `N` acquires return distinct
non-NULL slot pointers (the slots at offsets `e*0, ..., e*(N-1)`) and the
`(N+1)`-th acquire returns NULL. -/
theorem nested_queue_write_acquire_behaviour (N e : Nat)
    (wo ro : NestedQueueOperationOrder) (hN : 1 ≤ N) (he : 1 ≤ e) :
    (∀ q : NestedQueue, (NestedQueue_write_acquire q).1 = none ↔
        q.indexes.getD NESTED_QUEUE_COUNT_WRITABLE 0 = 0) ∧
    (∀ i < N, (writeAcquireN N (NestedQueue_fresh N e wo ro)).1.getD i none =
        some (e * i)) ∧
    (∀ i < N, ∀ j < N, i ≠ j →
        (writeAcquireN N (NestedQueue_fresh N e wo ro)).1.getD i none ≠
          (writeAcquireN N (NestedQueue_fresh N e wo ro)).1.getD j none) ∧
    (∀ i < N, (writeAcquireN N (NestedQueue_fresh N e wo ro)).1.getD i none ≠ none) ∧
    (NestedQueue_write_acquire (writeAcquireN N (NestedQueue_fresh N e wo ro)).2).1 =
      none := by
  have hrun := writeAcquireN_fresh N e wo ro hN N (le_refl N)
  have hres : ∀ i < N,
      (writeAcquireN N (NestedQueue_fresh N e wo ro)).1.getD i none = some (e * i) := by
    intro i hi
    rw [hrun]
    have hlen : i < ((List.range N).map (fun i => some (e * i))).length := by
      simpa using hi
    rw [List.getD_eq_getElem _ _ hlen]
    simp
  refine ⟨?_, hres, ?_, ?_, ?_⟩
  · intro q
    simp only [NestedQueue_write_acquire, NestedQueue_acquire]
    split_ifs with hc
    · simpa [List.getD] using hc
    · simpa [List.getD] using hc
  · intro i hi j hj hne heq
    rw [hres i hi, hres j hj] at heq
    exact hne (Nat.eq_of_mul_eq_mul_left (by omega) (Option.some.injEq _ _ ▸ heq))
  · intro i hi
    rw [hres i hi]
    simp
  · rw [hrun]
    simp [NestedQueue_write_acquire, NestedQueue_acquire,
      NESTED_QUEUE_COUNT_WRITABLE, Nat.sub_self]

/-- Claim C5 witness: on a fresh capacity-4 queue, the fifth
`NestedQueue_write_acquire` returns NULL. -/
theorem nested_queue_write_acquire_behaviour_witness :
    (NestedQueue_write_acquire (writeAcquireN 4 (NestedQueue_fresh 4 1
        NestedQueueOperationOrder.NESTED NestedQueueOperationOrder.NESTED)).2).1 =
      none :=
  (nested_queue_write_acquire_behaviour 4 1
    NestedQueueOperationOrder.NESTED NestedQueueOperationOrder.NESTED
    (by decide) (by decide)).2.2.2.2

/- Nested-queue NESTED commit scenario states (spec scenario 2, N = 4). -/

/-- The fresh N=4 NESTED/NESTED queue of the spec scenario. -/
def q40 : NestedQueue :=
  NestedQueue_fresh 4 1 NestedQueueOperationOrder.NESTED NestedQueueOperationOrder.NESTED

/-- The queue after acquiring the three write slots W1 = 0, W2 = 1, W3 = 2. -/
def q43 : NestedQueue := (writeAcquireN 3 q40).2

/-- The queue after `NestedQueue_write_commit` of W2 (slot offset 1). -/
def q4c2 : NestedQueue := NestedQueue_write_commit q43 1

/-- The queue after additionally committing W3 (slot offset 2). -/
def q4c3 : NestedQueue := NestedQueue_write_commit q4c2 2

/-- The queue after additionally committing W1 (slot offset 0). -/
def q4c1 : NestedQueue := NestedQueue_write_commit q4c3 0

/-- Claim C2, evaluated at the spec's own scenario: on the fresh N=4
queue with writes W1, W2, W3 acquired, committing W2 and then W3 are
silent no-ops and committing W1 advances `WRITE_COMMITTED` up to
`WRITE_ALLOCATED` — exactly as the claim says — but `COUNT_READABLE`
stays 0 instead of becoming 3, because the C code computes the count
delta as `(old[acquire] + n_elems - new[commit]) % n_elems` *after*
setting `new[commit] = old[acquire]`, which is always 0.  Consequently
`NestedQueue_read_acquire` still returns NULL although three slots were
committed: the code contradicts the claim (and its own read-side
contract). -/
theorem nested_queue_commit_count_bug :
    (writeAcquireN 3 q40).1 = [some 0, some 1, some 2] ∧
    q4c2 = q43 ∧
    q4c3 = q43 ∧
    q4c1.indexes.getD NESTED_QUEUE_WRITE_COMMITTED 0 =
      q4c1.indexes.getD NESTED_QUEUE_WRITE_ALLOCATED 0 ∧
    q4c1.indexes.getD NESTED_QUEUE_COUNT_READABLE 0 = 0 ∧
    (NestedQueue_read_acquire q4c1).1 = none := by
  decide
